import Mathlib

/-!
Verification of the Polymarket lag-trading bot's decision core against its
natural-language specification.  The Python sources are shallowly embedded:
float arithmetic is modelled with exact rationals, wall-clock datetimes with
rational seconds since the epoch, and stateful methods as explicit
state-passing functions.  Each definition mirrors one Python function of the
repository (file and line references in the doc comments).
-/

namespace PolyBot


/-! ### Python-style rounding

Python's builtin round uses round-half-to-even.  We model `round(x, n)` on the
exact rational value.
-/

/-- Round a rational to the nearest integer, halves going to the even integer,
as Python's builtin round does. -/
def halfEvenRound (q : ℚ) : ℤ :=
  if Int.fract q = 1/2 then
    (if 2 ∣ ⌊q⌋ then ⌊q⌋ else ⌊q⌋ + 1)
  else
    round q

/-- Model of Python's round(x, ndigits) on exact rationals. -/
def pyRound (ndigits : ℕ) (q : ℚ) : ℚ :=
  (halfEvenRound (q * 10 ^ ndigits) : ℚ) / 10 ^ ndigits

/-- Wall-clock instants are rational numbers of seconds since the epoch; the
UTC calendar day of an instant, as compared by check_daily_reset. -/
def dayOf (t : ℚ) : ℤ := ⌊t / 86400⌋

/-! ### Price feed data model — src/price_feeds/models.py -/

/-- Enumeration PriceSource (models.py lines 11-16). -/
inductive PriceSource where
  | chainlink_scrape
  | chainlink_onchain
  | chainlink_api
  | polymarket
  deriving DecidableEq, Repr

/-- Dataclass PriceData (models.py lines 19-41).  The optional 24h statistics
fields are never read by the code under verification and are omitted. -/
structure PriceData where
  symbol : String
  price : ℚ
  timestamp : ℚ
  source : PriceSource
  confidence : ℚ := 1
  deriving DecidableEq, Repr

/-- Age in seconds of a price observation at instant now
(models.py lines 34-37). -/
def PriceData.age_seconds (pd : PriceData) (now : ℚ) : ℚ :=
  now - pd.timestamp

/-- Staleness predicate is_stale (models.py lines 39-41). -/
def PriceData.is_stale (pd : PriceData) (now : ℚ) (max_age_seconds : ℚ := 30) : Bool :=
  pd.age_seconds now > max_age_seconds

/-- Dataclass PriceFeed (models.py lines 59-67). -/
structure PriceFeed where
  symbol : String
  current_price : Option PriceData := none
  price_history : List PriceData := []
  max_history_size : ℕ := 1000
  deriving DecidableEq, Repr

/-- Python's lst[-n:] slice: for n = 0 it returns the whole list, otherwise
the last n elements. -/
def pyLastSlice (n : ℕ) (l : List PriceData) : List PriceData :=
  if n = 0 then l else l.drop (l.length - n)

/-- Method PriceFeed.update (models.py lines 69-76): unconditionally replace
current_price, append to the history, and trim the history to the last
max_history_size entries when it overflows. -/
def PriceFeed.update (f : PriceFeed) (price_data : PriceData) : PriceFeed :=
  let hist := f.price_history ++ [price_data]
  let hist := if hist.length > f.max_history_size then pyLastSlice f.max_history_size hist
              else hist
  { f with current_price := some price_data, price_history := hist }

/-- Fresh feed as created by PriceManager.initialize
(price_manager.py lines 57-59): PriceFeed(symbol=symbol). -/
def initFeed (symbol : String) : PriceFeed := { symbol := symbol }

/-- Dataclass PriceLag (models.py lines 119-130). -/
structure PriceLag where
  symbol : String
  oracle_price : ℚ
  polymarket_price : ℚ
  oracle_timestamp : ℚ
  polymarket_timestamp : ℚ
  lag_seconds : ℚ
  price_difference_pct : ℚ
  deriving DecidableEq, Repr

/-- Method PriceManager.get_price_lag (price_manager.py lines 198-222),
reading the current observation of each of the two feeds for a symbol.
Division is exact rational division (total, with q / 0 = 0; the Python code
raises ZeroDivisionError when polymarket.price is exactly zero). -/
def get_price_lag (symbol : String) (oracle_feed polymarket_feed : Option PriceFeed) :
    Option PriceLag :=
  let oracle := oracle_feed.bind (·.current_price)
  let polymarket := polymarket_feed.bind (·.current_price)
  match oracle, polymarket with
  | some oracle, some polymarket =>
    let lag_seconds := oracle.timestamp - polymarket.timestamp
    let price_diff_pct := ((oracle.price - polymarket.price) / polymarket.price) * 100
    some { symbol := symbol
           oracle_price := oracle.price
           polymarket_price := polymarket.price
           oracle_timestamp := oracle.timestamp
           polymarket_timestamp := polymarket.timestamp
           lag_seconds := |lag_seconds|
           price_difference_pct := price_diff_pct }
  | _, _ => none

/-- Property PriceLag.is_profitable (models.py lines 132-136): the gate on
which _check_lag fans the reading out to the lag callbacks. -/
def PriceLag.is_profitable (lag : PriceLag) : Bool :=
  lag.lag_seconds ≥ 10.0 ∧ |lag.price_difference_pct| ≥ 0.3

/-- Method PriceManager._check_lag (price_manager.py lines 119-144): the
reading it computes, or none on the early returns when a feed or its
current observation is absent.  The indexed dict lookups
self.oracle_feeds.get(symbol) / self.polymarket_feeds.get(symbol) are the
two Option PriceFeed arguments, and the callback fan-out (lines 146-157),
fired exactly when the reading is_profitable, is side-effect only. -/
def check_lag (symbol : String) (oracle_feed polymarket_feed : Option PriceFeed) :
    Option PriceLag :=
  match oracle_feed with
  | none => none
  | some ofeed =>
    match ofeed.current_price with
    | none => none
    | some oracle_price =>
      match polymarket_feed with
      | none => none
      | some pfeed =>
        match pfeed.current_price with
        | none => none
        | some pm_price =>
          let lag_seconds := oracle_price.timestamp - pm_price.timestamp
          let price_diff_pct := ((oracle_price.price - pm_price.price) / pm_price.price) * 100
          some { symbol := symbol
                 oracle_price := oracle_price.price
                 polymarket_price := pm_price.price
                 oracle_timestamp := oracle_price.timestamp
                 polymarket_timestamp := pm_price.timestamp
                 lag_seconds := |lag_seconds|
                 price_difference_pct := price_diff_pct }

/-! ### Polymarket data model — src/polymarket/models.py -/

/-- Enumeration OrderSide (polymarket/models.py lines 19-22). -/
inductive OrderSide where
  | buy
  | sell
  deriving DecidableEq, Repr

/-- Enumeration PositionStatus (polymarket/models.py lines 42-45); the
Python member OPEN is rendered opened because open is a Lean keyword. -/
inductive PositionStatus where
  | opened
  | closed
  deriving DecidableEq, Repr

/-- Dataclass OrderBook (polymarket/models.py lines 60-68); only the
timestamp is read by the strategy under verification, the bid/ask levels
are not. -/
structure OrderBook where
  token_id : String
  timestamp : ℚ
  deriving DecidableEq, Repr

/-- Dataclass MarketOutcome (polymarket/models.py lines 126-135). -/
structure MarketOutcome where
  outcome_id : String
  token_id : String
  outcome : String
  price : ℚ
  order_book : Option OrderBook := none
  deriving DecidableEq, Repr

/-- Dataclass Market (polymarket/models.py lines 154-176); fields that the
lag strategy never reads (question, volume, dates, ...) are omitted. -/
structure Market where
  market_id : String
  outcomes : List MarketOutcome := []
  liquidity : ℚ := 0
  price_threshold : Option ℚ := none
  threshold_type : Option String := none
  deriving DecidableEq, Repr

/-- Lowercasing of one character, ASCII range; models Python's str.lower on
the outcome labels, which are ASCII ("Yes"/"No"). -/
def charLower (c : Char) : Char :=
  if 'A' ≤ c ∧ c ≤ 'Z' then Char.ofNat (c.toNat + 32) else c

/-- Python str.lower on ASCII strings. -/
def strLower (s : String) : String := ⟨s.data.map charLower⟩

/-- Method Market.get_yes_outcome (polymarket/models.py lines 178-183):
first outcome whose label lowercases to yes. -/
def Market.get_yes_outcome (m : Market) : Option MarketOutcome :=
  m.outcomes.find? (fun o => strLower o.outcome == "yes")

/-- Method Market.get_implied_price (polymarket/models.py lines 192-216).
Python's `if not self.price_threshold` is falsy for both None and 0.0, which
the nested match mirrors. -/
def Market.get_implied_price (m : Market) : Option ℚ :=
  match m.price_threshold with
  | none => none
  | some th =>
    if th = 0 then none
    else
      match m.get_yes_outcome with
      | none => none
      | some yes =>
        let prob := yes.price
        if m.threshold_type = some "above" then
          let range_estimate := th * 0.05
          some (th + (prob - 0.5) * 2 * range_estimate)
        else
          some th

/-- Dataclass Position (polymarket/models.py lines 286-302). -/
structure Position where
  position_id : String
  market_id : String
  token_id : String
  outcome : String
  side : OrderSide
  entry_price : ℚ
  size : ℚ
  current_price : ℚ := 0
  status : PositionStatus := .opened
  opened_at : ℚ
  closed_at : Option ℚ := none
  realized_pnl : ℚ := 0
  deriving DecidableEq, Repr

/-- Property Position.unrealized_pnl (polymarket/models.py lines 304-313). -/
def Position.unrealized_pnl (p : Position) : ℚ :=
  if p.status = .closed then 0
  else if p.side = .buy then (p.current_price - p.entry_price) * p.size
  else (p.entry_price - p.current_price) * p.size

/-! ### Strategy data model

The file src/strategy/models.py is absent from the snapshot; only its
importers (lag_strategy.py, risk_manager.py, position_manager.py) are under
src/.  The Signal and TradeAction shapes below are reconstructed from the
constructor call in LagTradingStrategy.analyze_lag (lag_strategy.py lines
215-230) and generate_trade_action (lines 358-369), and their derived
members from the specification.
-/

/-- Signal direction: the SignalType enumeration imported from the missing
strategy/models.py, with the members used by lag_strategy.py. -/
inductive SignalType where
  | buy_yes
  | buy_no
  | no_action
  deriving DecidableEq, Repr

/-- Signal strength bands, the SignalStrength enumeration imported from the
missing strategy/models.py. -/
inductive SignalStrength where
  | weak
  | moderate
  | strong
  | very_strong
  deriving DecidableEq, Repr

/-- Reason labels attached to signals; the source stores human-readable
formatted strings (lag_strategy.py lines 179 and 183), abstracted here to
tags since only their identity matters. -/
inductive SignalReason where
  | empty
  | oracle_above_market_lagging
  | oracle_suggests_lower_market_lagging
  deriving DecidableEq, Repr

/-- Dataclass Signal, with the fields passed by analyze_lag
(lag_strategy.py lines 215-230) plus a timestamp.
Modelled from the spec: strategy/models.py is missing from the snapshot;
per section 3 a Signal carries a timestamp, and analyze_lag reads
signal.timestamp right after construction (line 234), so the timestamp is
the creation instant, supplied here as an explicit argument. -/
structure Signal where
  symbol : String
  signal_type : SignalType
  strength : SignalStrength
  oracle_price : ℚ
  market_price : ℚ
  price_threshold : ℚ
  lag_seconds : ℚ
  price_diff_pct : ℚ
  confidence : ℚ
  reason : SignalReason
  market_id : String
  token_id : String
  recommended_size : ℚ
  expected_profit_pct : ℚ
  timestamp : ℚ
  deriving DecidableEq, Repr

/-- Derived member Signal.is_actionable.
Modelled from the spec: strategy/models.py is missing from the snapshot;
section 3 defines actionable as direction distinct from NONE and stored
confidence at least the configured threshold (default 0.6 per
lag_strategy.py line 42).  Nothing in the spec makes it depend on the
recommended size. -/
def Signal.is_actionable (s : Signal) : Bool :=
  s.signal_type ≠ SignalType.no_action ∧ s.confidence ≥ 0.6

/-- Dataclass TradeAction with the fields read by RiskManager.validate_trade
(risk_manager.py lines 121-129): size, max_slippage and the embedded
signal's confidence.  The remaining constructor fields of
generate_trade_action (ids, side, prices) are never read by the code under
verification and are omitted. -/
structure TradeAction where
  signal : Signal
  size : ℚ
  max_slippage : ℚ
  deriving DecidableEq, Repr

/-! ### Lag trading strategy — src/strategy/lag_strategy.py -/

/-- Constructor parameters of LagTradingStrategy (lag_strategy.py
lines 37-59) with their default values. -/
structure StrategyParams where
  lag_threshold : ℚ := 10
  price_diff_threshold : ℚ := 0.3
  max_position_size : ℚ := 100
  confidence_threshold : ℚ := 0.6
  deriving DecidableEq, Repr

/-- Default-constructed strategy parameters. -/
def defaultParams : StrategyParams := {}

/-- Method LagTradingStrategy._calculate_confidence (lag_strategy.py
lines 246-274). -/
def calculate_confidence (lag_seconds prob_diff oracle_confidence market_liquidity : ℚ) : ℚ :=
  let lag_factor := min 1 (lag_seconds / 30)
  let prob_factor := min 1 (prob_diff / 0.2)
  let oracle_factor := oracle_confidence
  let liquidity_factor := min 1 (market_liquidity / 10000)
  let confidence :=
    lag_factor * 0.3 + prob_factor * 0.35 + oracle_factor * 0.2 + liquidity_factor * 0.15
  pyRound 3 confidence

/-- Strength multipliers of _calculate_position_size (lag_strategy.py
lines 290-296); the dict lookup is total over the enumeration, so the 0.5
fallback of .get is unreachable. -/
def strength_multiplier : SignalStrength → ℚ
  | .weak => 0.25
  | .moderate => 0.5
  | .strong => 0.75
  | .very_strong => 1.0

/-- Method LagTradingStrategy._calculate_position_size (lag_strategy.py
lines 276-303). -/
def calculate_position_size (max_position_size confidence : ℚ) (strength : SignalStrength)
    (market_liquidity : ℚ) : ℚ :=
  let base_size := max_position_size
  let size := base_size * confidence
  let size := size * strength_multiplier strength
  let max_from_liquidity := market_liquidity * 0.1
  let size := min size max_from_liquidity
  pyRound 2 size

/-- Method LagTradingStrategy._calculate_expected_profit (lag_strategy.py
lines 305-319). -/
def calculate_expected_profit (prob_diff : ℚ) : ℚ :=
  let expected_profit_pct := |prob_diff| * 100
  let expected_profit_pct := expected_profit_pct - 2.0
  max 0 (pyRound 2 expected_profit_pct)

/-- Method LagTradingStrategy.analyze_lag (lag_strategy.py lines 104-244),
as a function of the strategy parameters, the inputs, and the creation
instant now used for the signal timestamp.  Python's falsy guards
`if not market_implied` and `if not threshold_price` reject both None and
0.0.  The signal-history bookkeeping (lines 232-242) only mutates counters
and the bounded history and is not part of the returned value. -/
def analyze_lag (p : StrategyParams) (symbol : String) (oracle_price : PriceData)
    (market : Market) (now : ℚ) : Option Signal :=
  match market.get_implied_price with
  | none => none
  | some market_implied =>
  if market_implied = 0 then none else
  match market.price_threshold with
  | none => none
  | some threshold_price =>
  if threshold_price = 0 then none else
  let price_diff_pct := ((oracle_price.price - market_implied) / market_implied) * 100
  match market.get_yes_outcome with
  | none => none
  | some yes_outcome =>
  let lag_seconds :=
    match yes_outcome.order_book with
    | some ob => oracle_price.timestamp - ob.timestamp
    | none => 15.0
  let market_prob := yes_outcome.price
  let price_distance_pct := ((oracle_price.price - threshold_price) / threshold_price) * 100
  let expected_prob := 0.5 + price_distance_pct * 0.1
  let expected_prob := max 0.1 (min 0.9 expected_prob)
  let prob_diff := expected_prob - market_prob
  let triggered := |lag_seconds| ≥ p.lag_threshold ∧ |prob_diff| ≥ 0.05
  let signal_type : SignalType :=
    if triggered then (if prob_diff > 0 then .buy_yes else .buy_no) else .no_action
  let reason : SignalReason :=
    if triggered then
      (if prob_diff > 0 then .oracle_above_market_lagging
       else .oracle_suggests_lower_market_lagging)
    else .empty
  let strength : SignalStrength :=
    if triggered then
      (if |prob_diff| ≥ 0.15 then .very_strong
       else if |prob_diff| ≥ 0.10 then .strong
       else if |prob_diff| ≥ 0.05 then .moderate
       else .weak)
    else .weak
  let confidence :=
    calculate_confidence |lag_seconds| |prob_diff| oracle_price.confidence market.liquidity
  let recommended_size :=
    calculate_position_size p.max_position_size confidence strength market.liquidity
  let expected_profit := calculate_expected_profit prob_diff
  some { symbol := symbol
         signal_type := signal_type
         strength := strength
         oracle_price := oracle_price.price
         market_price := market_implied
         price_threshold := threshold_price
         lag_seconds := |lag_seconds|
         price_diff_pct := price_diff_pct
         confidence := confidence
         reason := reason
         market_id := market.market_id
         token_id := yes_outcome.token_id
         recommended_size := recommended_size
         expected_profit_pct := expected_profit
         timestamp := now }

/-- Projection of a Signal onto every field except the timestamp, used to
state which fields are a pure function of the analysis inputs. -/
def Signal.fieldsExceptTimestamp (s : Signal) :
    String × SignalType × SignalStrength × ℚ × ℚ × ℚ × ℚ × ℚ × ℚ × SignalReason ×
    String × String × ℚ × ℚ :=
  (s.symbol, s.signal_type, s.strength, s.oracle_price, s.market_price,
   s.price_threshold, s.lag_seconds, s.price_diff_pct, s.confidence, s.reason,
   s.market_id, s.token_id, s.recommended_size, s.expected_profit_pct)

/-! ### Risk manager — src/strategy/risk_manager.py -/

/-- Dataclass RiskLimits (risk_manager.py lines 13-23) with its defaults. -/
structure RiskLimits where
  max_position_size_usd : ℚ := 100
  max_daily_loss_usd : ℚ := 50
  max_concurrent_positions : ℤ := 3
  max_slippage_pct : ℚ := 0.5
  stop_loss_pct : ℚ := 5
  min_liquidity_usd : ℚ := 500
  max_exposure_pct : ℚ := 50
  cooldown_after_loss_seconds : ℚ := 60
  deriving DecidableEq, Repr

/-- Default-constructed risk limits, as used by RiskManager() with no
argument. -/
def defaultLimits : RiskLimits := {}

/-- Dataclass RiskState (risk_manager.py lines 26-36).  positions_count is a
Python int, modelled as an integer so that the max(0, ..) clamping in
on_trade_closed is visible; day_start keeps only the UTC day number, which
is all check_daily_reset compares. -/
structure RiskState where
  daily_pnl : ℚ := 0
  daily_trades : ℕ := 0
  daily_losses : ℕ := 0
  current_exposure_usd : ℚ := 0
  last_loss_time : Option ℚ := none
  in_cooldown : Bool := false
  positions_count : ℤ := 0
  day_start : ℤ
  deriving DecidableEq, Repr

/-- Method RiskState.reset_daily (risk_manager.py lines 38-43). -/
def reset_daily (s : RiskState) (now : ℚ) : RiskState :=
  { s with daily_pnl := 0, daily_trades := 0, daily_losses := 0, day_start := dayOf now }

/-- State of a freshly constructed RiskManager at instant t0
(risk_manager.py lines 58-67). -/
def initState (t0 : ℚ) : RiskState := { day_start := dayOf t0 }

/-- Reason labels of the rejection strings returned by can_trade and
validate_trade; the source interpolates values into human-readable strings,
abstracted here to tags identifying the failing check. -/
inductive RejectReason where
  | ok
  | daily_loss_limit
  | max_positions
  | cooldown
  | size_limit
  | slippage_limit
  | low_confidence
  deriving DecidableEq, Repr

/-- Method RiskManager.check_daily_reset (risk_manager.py lines 69-74). -/
def check_daily_reset (s : RiskState) (now : ℚ) : RiskState :=
  if dayOf now > s.day_start then reset_daily s now else s

/-- Method RiskManager.can_trade (risk_manager.py lines 76-103), returning
the mutated state together with the (allowed, reason) pair. -/
def can_trade (lim : RiskLimits) (s : RiskState) (now : ℚ) :
    RiskState × Bool × RejectReason :=
  let s := check_daily_reset s now
  if |s.daily_pnl| ≥ lim.max_daily_loss_usd ∧ s.daily_pnl < 0 then
    (s, false, .daily_loss_limit)
  else if s.positions_count ≥ lim.max_concurrent_positions then
    (s, false, .max_positions)
  else if s.in_cooldown then
    match s.last_loss_time with
    | some t =>
      if now < t + lim.cooldown_after_loss_seconds then (s, false, .cooldown)
      else ({ s with in_cooldown := false }, true, .ok)
    | none => (s, true, .ok)
  else (s, true, .ok)

/-- Composite cooldown rejection condition of can_trade (risk_manager.py
lines 93-99): the cooldown flag is set, a loss instant is recorded, and the
cooldown window after it has not yet elapsed. -/
def cooldown_active (lim : RiskLimits) (s : RiskState) (now : ℚ) : Bool :=
  s.in_cooldown &&
    match s.last_loss_time with
    | some t => decide (now < t + lim.cooldown_after_loss_seconds)
    | none => false

/-- Method RiskManager.validate_trade (risk_manager.py lines 105-132). -/
def validate_trade (lim : RiskLimits) (s : RiskState) (now : ℚ) (action : TradeAction) :
    RiskState × Bool × RejectReason :=
  match can_trade lim s now with
  | (s, allowed, reason) =>
    if allowed then
      if action.size > lim.max_position_size_usd then (s, false, .size_limit)
      else if action.max_slippage > lim.max_slippage_pct / 100 then (s, false, .slippage_limit)
      else if action.signal.confidence < 0.5 then (s, false, .low_confidence)
      else (s, true, .ok)
    else (s, false, reason)

/-- Method RiskManager.adjust_position_size (risk_manager.py lines 134-173). -/
def adjust_position_size (lim : RiskLimits) (s : RiskState)
    (requested_size confidence market_liquidity : ℚ) : ℚ :=
  let size := requested_size
  let size := size * confidence
  let size := min size lim.max_position_size_usd
  let max_from_liquidity := market_liquidity * 0.10
  let size := min size max_from_liquidity
  let size :=
    if s.daily_losses > 0 then
      size * max 0.5 (1.0 - (s.daily_losses : ℚ) * 0.1)
    else size
  let min_size : ℚ := 5.0
  if size < min_size then 0.0 else pyRound 2 size

/-- Method RiskManager.on_trade_opened (risk_manager.py lines 175-179). -/
def on_trade_opened (s : RiskState) (position_size : ℚ) : RiskState :=
  { s with positions_count := s.positions_count + 1
           current_exposure_usd := s.current_exposure_usd + position_size
           daily_trades := s.daily_trades + 1 }

/-- Method RiskManager.on_trade_closed (risk_manager.py lines 181-205) at
instant now; the trade-history journal append (lines 199-205) carries no
state read back by the code under verification and is omitted. -/
def on_trade_closed (s : RiskState) (pnl position_size : ℚ) (now : ℚ) : RiskState :=
  let s := { s with positions_count := max 0 (s.positions_count - 1)
                    current_exposure_usd := max 0 (s.current_exposure_usd - position_size)
                    daily_pnl := s.daily_pnl + pnl }
  if pnl < 0 then
    { s with daily_losses := s.daily_losses + 1
             last_loss_time := some now
             in_cooldown := true }
  else s

/-! ### Event traces over the risk manager

The external calls that drive the RiskGate state machine, each stamped with
the wall-clock instant at which it runs.
-/

/-- External calls mutating the risk state. -/
inductive RiskEvent where
  | openTrade (size : ℚ)
  | closeTrade (pnl size : ℚ)
  | canTradeCall
  deriving DecidableEq, Repr

/-- An event together with the instant at which it is processed. -/
structure TimedEvent where
  t : ℚ
  e : RiskEvent
  deriving DecidableEq, Repr

/-- Effect of one timed external call on the risk state.  A can_trade call
covers both direct calls and the one at the top of validate_trade and
get_status. -/
def apply_event (lim : RiskLimits) (s : RiskState) (te : TimedEvent) : RiskState :=
  match te.e with
  | .openTrade size => on_trade_opened s size
  | .closeTrade pnl size => on_trade_closed s pnl size te.t
  | .canTradeCall => (can_trade lim s te.t).1

/-- Fold of a trace of timed external calls. -/
def run_events (lim : RiskLimits) (s : RiskState) (evs : List TimedEvent) : RiskState :=
  evs.foldl (apply_event lim) s

/-- Chronological trace: every event instant lies between the given start and
end instants, in nondecreasing order. -/
def Chron (t0 : ℚ) : List TimedEvent → ℚ → Prop
  | [], t => t0 ≤ t
  | te :: rest, t => t0 ≤ te.t ∧ Chron te.t rest t

/-- Risk states reachable at instant t: produced by some chronological trace
of external calls from a fresh RiskManager. -/
def ReachableAt (lim : RiskLimits) (s : RiskState) (t : ℚ) : Prop :=
  ∃ t0 evs, Chron t0 evs t ∧ s = run_events lim (initState t0) evs

/-! ### Position manager — src/strategy/position_manager.py -/

/-- State of a PositionManager (position_manager.py lines 23-33); the
Python dict of open positions is modelled as an association list keyed by
position id. -/
structure PositionManager where
  open_positions : List (String × Position) := []
  closed_positions : List Position := []
  max_closed_history : ℕ := 500
  total_realized_pnl : ℚ := 0
  total_trades : ℕ := 0
  winning_trades : ℕ := 0
  losing_trades : ℕ := 0
  deriving DecidableEq, Repr

/-- Dict lookup self.open_positions.get(position_id). -/
def lookup_open (pm : PositionManager) (position_id : String) : Option Position :=
  (pm.open_positions.find? (fun kv => kv.1 == position_id)).map (·.2)

/-- Dict deletion del self.open_positions[position_id]. -/
def remove_open (pm : PositionManager) (position_id : String) : List (String × Position) :=
  pm.open_positions.filter (fun kv => kv.1 ≠ position_id)

/-- Python's lst[-n:] slice for position lists, as used to trim the closed
history. -/
def pyLastSlicePos (n : ℕ) (l : List Position) : List Position :=
  if n = 0 then l else l.drop (l.length - n)

/-- Method PositionManager.close_position (position_manager.py lines 88-136)
at instant now: returns the (position, pnl) outcome, or none with the state
untouched when the id is not an open position. -/
def close_position (pm : PositionManager) (position_id : String) (exit_price : ℚ)
    (now : ℚ) : Option (Position × ℚ) × PositionManager :=
  match lookup_open pm position_id with
  | none => (none, pm)
  | some position =>
    let position := { position with current_price := exit_price }
    let pnl := position.unrealized_pnl
    let position := { position with realized_pnl := pnl }
    let position := { position with status := .closed, closed_at := some now }
    let closed := pm.closed_positions ++ [position]
    let closed := if closed.length > pm.max_closed_history
                  then pyLastSlicePos pm.max_closed_history closed else closed
    let pm := { pm with
      open_positions := remove_open pm position_id
      closed_positions := closed
      total_realized_pnl := pm.total_realized_pnl + pnl
      winning_trades := if pnl > 0 then pm.winning_trades + 1 else pm.winning_trades
      losing_trades := if pnl > 0 then pm.losing_trades else pm.losing_trades + 1 }
    (some (position, pnl), pm)

/-- Concrete ledger for the C8 witness: one open position a, one already
closed position c. -/
def posA : Position :=
  { position_id := "a", market_id := "m1", token_id := "tok1", outcome := "Yes",
    side := .buy, entry_price := 0.5, size := 10, current_price := 0.5,
    status := .opened, opened_at := 0 }

/-- Already-closed position used in the C8 witness ledger. -/
def posC : Position :=
  { position_id := "c", market_id := "m1", token_id := "tok2", outcome := "No",
    side := .buy, entry_price := 0.4, size := 20, current_price := 0.6,
    status := .closed, opened_at := 0, closed_at := some 5, realized_pnl := 4 }

/-- Ledger with one open and one closed position. -/
def pmC8 : PositionManager :=
  { open_positions := [("a", posA)], closed_positions := [posC],
    total_realized_pnl := 4, total_trades := 2, winning_trades := 1, losing_trades := 0 }

/-! ### Claim C2 — get_price_lag and missing/stale/near-zero inputs

The code only guards against an absent observation: it performs no staleness
check and no epsilon check before dividing by the implied value.
-/

/-- Oracle feed for the C2 counterexample: a fresh observation. -/
def oracleFeedC2 : PriceFeed :=
  { symbol := "BTC",
    current_price := some ⟨"BTC", 50000, 99, .chainlink_scrape, 1⟩,
    price_history := [⟨"BTC", 50000, 99, .chainlink_scrape, 1⟩] }

/-- Polymarket implied observation for the C2 counterexample: 100 seconds
old (stale far beyond the 30-second bound) with a price below the 1e-6
epsilon. -/
def pdPmC2 : PriceData := ⟨"BTC", 1/10000000, 0, .polymarket, 0.9⟩

/-- Polymarket feed holding the stale, near-zero observation. -/
def pmFeedC2 : PriceFeed :=
  { symbol := "BTC", current_price := some pdPmC2, price_history := [pdPmC2] }

/-- Reading both lag functions return on the C2 feeds: its
price_difference_pct is the quotient of the 50000-dollar gap by the 1e-7
implied value (times 100), exhibiting the unguarded division. -/
def lagC2 : PriceLag :=
  { symbol := "BTC", oracle_price := 50000, polymarket_price := 1/10000000,
    oracle_timestamp := 99, polymarket_timestamp := 0, lag_seconds := 99,
    price_difference_pct := 49999999999900 }

/-! ### Claim C3 — out-of-order observations are not dropped

PriceFeed.update has no timestamp comparison at all: it unconditionally
replaces current_price and appends to the history.
-/

/-- Head observation of the C3 feed (timestamp 10). -/
def pdHeadC3 : PriceData := ⟨"BTC", 50, 10, .chainlink_scrape, 1⟩

/-- Incoming observation older than the head (timestamp 5). -/
def pdOldC3 : PriceData := ⟨"BTC", 49, 5, .chainlink_scrape, 1⟩

/-- Feed whose head carries timestamp 10. -/
def feedC3 : PriceFeed :=
  { symbol := "BTC", current_price := some pdHeadC3, price_history := [pdHeadC3] }

/-! ### Concrete scoring scenario used by the C6 and C9 counterexamples

Oracle at 110 against a threshold-100 "above" market whose Yes outcome sits
at probability 0.5 with a 20-second-old order book and a thin 30-dollar
liquidity.
-/

/-- Yes outcome of the concrete market. -/
def outcomeC6 : MarketOutcome :=
  { outcome_id := "o1", token_id := "tokYes", outcome := "Yes", price := 0.5,
    order_book := some { token_id := "tokYes", timestamp := 0 } }

/-- Concrete 15-minute market. -/
def marketC6 : Market :=
  { market_id := "m1", outcomes := [outcomeC6], liquidity := 30,
    price_threshold := some 100, threshold_type := some "above" }

/-- Concrete oracle observation. -/
def oracleC6 : PriceData := ⟨"BTC", 110, 20, .chainlink_scrape, 1⟩

/-- The signal analyze_lag produces on the concrete scenario when invoked at
instant now. -/
def sigC6 (now : ℚ) : Signal :=
  { symbol := "BTC", signal_type := .buy_yes, strength := .very_strong,
    oracle_price := 110, market_price := 100, price_threshold := 100,
    lag_seconds := 20, price_diff_pct := 10, confidence := 0.75,
    reason := .oracle_above_market_lagging, market_id := "m1",
    token_id := "tokYes", recommended_size := 3, expected_profit_pct := 38,
    timestamp := now }

/-- Signal carried by the C7 witness proposal: very confident. -/
def sigC7 : Signal :=
  { symbol := "BTC", signal_type := .buy_yes, strength := .strong,
    oracle_price := 110, market_price := 100, price_threshold := 100,
    lag_seconds := 12, price_diff_pct := 10, confidence := 0.99,
    reason := .oracle_above_market_lagging, market_id := "m1",
    token_id := "tok", recommended_size := 150, expected_profit_pct := 5,
    timestamp := 0 }

/-- Proposal of 150 dollars against the default 100-dollar limit. -/
def actionC7 : TradeAction := { signal := sigC7, size := 150, max_slippage := 0.001 }

/-! ### Claim C1 — the gate never approves past its limits

Reachability of risk states under chronological traces of external calls,
and the cooldown invariant: whenever the cooldown flag has been cleared,
the recorded loss's window has in fact elapsed.
-/

/-- Cooldown bookkeeping invariant at instant t: any recorded loss lies in
the past, and the flag is only ever cleared once the loss's cooldown window
has elapsed. -/
def CooldownInv (lim : RiskLimits) (s : RiskState) (t : ℚ) : Prop :=
  ∀ u, s.last_loss_time = some u →
    u ≤ t ∧ (s.in_cooldown = false → u + lim.cooldown_after_loss_seconds ≤ t)

/-- Trace for the C1 witness: one losing close at instant 10. -/
def evsC1 : List TimedEvent := [⟨10, .closeTrade (-6) 10⟩]

/-- Risk state after that trace. -/
def sC1 : RiskState := run_events defaultLimits (initState 0) evsC1

/-! ### Claim C10 — counters never go negative -/

/-- Admissibility of one timed call: a trade is opened with a nonnegative
position size (closes are unrestricted, the code clamps them). -/
def opens_nonneg (te : TimedEvent) : Prop :=
  match te.e with
  | .openTrade size => 0 ≤ size
  | _ => True

/-- Trace for the C10 witness: one ten-dollar open, then two closes whose
total size exceeds what was opened. -/
def evsC10 : List TimedEvent :=
  [⟨0, .openTrade 10⟩, ⟨1, .closeTrade (-5) 20⟩, ⟨2, .closeTrade 3 4⟩]

/-! ## Theorems -/

theorem floor_le_halfEvenRound (q : ℚ) : ⌊q⌋ ≤ halfEvenRound q := by
  unfold halfEvenRound
  split
  · split <;> omega
  · rw [round_eq]
    exact Int.floor_le_floor (by linarith)

theorem halfEvenRound_le_ceil (q : ℚ) : halfEvenRound q ≤ ⌈q⌉ := by
  unfold halfEvenRound
  split
  · rename_i h
    have hq : q = (⌊q⌋ : ℚ) + 1/2 := by
      have hfl := Int.fract_add_floor q
      rw [h] at hfl
      linarith
    have hlt : (⌊q⌋ : ℚ) < (⌈q⌉ : ℚ) := by
      have := Int.le_ceil q
      linarith
    have : ⌊q⌋ < ⌈q⌉ := by exact_mod_cast hlt
    split <;> omega
  · rw [round_eq]
    have h1 : q + 1/2 ≤ (⌈q⌉ : ℚ) + 1/2 := by linarith [Int.le_ceil q]
    calc ⌊q + 1/2⌋ ≤ ⌊(⌈q⌉ : ℚ) + 1/2⌋ := Int.floor_le_floor h1
    _ = ⌈q⌉ := by
        rw [add_comm, Int.floor_add_int]
        norm_num

/-- Rounding to ndigits decimal places cannot cross a bound that is itself
representable with ndigits decimal places (from above). -/
theorem pyRound_le (ndigits : ℕ) (q b : ℚ) (z : ℤ) (hz : (z : ℚ) = b * 10 ^ ndigits)
    (h : q ≤ b) : pyRound ndigits q ≤ b := by
  unfold pyRound
  have hpow : (0 : ℚ) < 10 ^ ndigits := by positivity
  rw [div_le_iff hpow]
  have hceil : ⌈q * 10 ^ ndigits⌉ ≤ z := by
    rw [Int.ceil_le, hz]
    exact mul_le_mul_of_nonneg_right h (le_of_lt hpow)
  have := (halfEvenRound_le_ceil (q * 10 ^ ndigits)).trans hceil
  calc ((halfEvenRound (q * 10 ^ ndigits) : ℚ)) ≤ (z : ℚ) := by exact_mod_cast this
  _ = b * 10 ^ ndigits := hz

/-- Rounding to ndigits decimal places cannot cross a bound that is itself
representable with ndigits decimal places (from below). -/
theorem le_pyRound (ndigits : ℕ) (q a : ℚ) (z : ℤ) (hz : (z : ℚ) = a * 10 ^ ndigits)
    (h : a ≤ q) : a ≤ pyRound ndigits q := by
  unfold pyRound
  have hpow : (0 : ℚ) < 10 ^ ndigits := by positivity
  rw [le_div_iff hpow]
  have hfloor : z ≤ ⌊q * 10 ^ ndigits⌋ := by
    rw [Int.le_floor, hz]
    exact mul_le_mul_of_nonneg_right h (le_of_lt hpow)
  have := hfloor.trans (floor_le_halfEvenRound (q * 10 ^ ndigits))
  calc a * 10 ^ ndigits = (z : ℚ) := hz.symm
  _ ≤ ((halfEvenRound (q * 10 ^ ndigits) : ℚ)) := by exact_mod_cast this

/-- Evaluation rule for pyRound away from ties: when q scaled by 10^n lies
strictly within half a unit of the integer z, the rounding returns z over
10^n. -/
theorem pyRound_eq (ndigits : ℕ) (q : ℚ) (z : ℤ)
    (h1 : (z : ℚ) - 1/2 < q * 10 ^ ndigits) (h2 : q * 10 ^ ndigits < (z : ℚ) + 1/2) :
    pyRound ndigits q = (z : ℚ) / 10 ^ ndigits := by
  set x := q * 10 ^ ndigits with hx
  have hfr : Int.fract x ≠ 1/2 := by
    intro hfr
    have hxf : x = (⌊x⌋ : ℚ) + 1/2 := by
      have := Int.fract_add_floor x
      rw [hfr] at this
      linarith
    have hup : (⌊x⌋ : ℚ) < (z : ℚ) := by linarith
    have hdown : (z : ℚ) - 1 < (⌊x⌋ : ℚ) := by linarith
    have h3 : ⌊x⌋ < z := by exact_mod_cast hup
    have h4 : z - 1 < ⌊x⌋ := by exact_mod_cast hdown
    omega
  have hround : round x = z := by
    rw [round_eq]
    refine Int.floor_eq_iff.mpr ⟨by push_cast; linarith, by push_cast; linarith⟩
  unfold pyRound halfEvenRound
  rw [← hx, if_neg hfr, hround]

/-! ## Claims -/

/-! ### Claim C8 — close_position on a non-open id -/

/-- C8: for every ledger state and every position id that is not currently
open (nonexistent or already closed), close_position returns the none
outcome and leaves the whole ledger state unchanged. -/
theorem close_position_not_found (pm : PositionManager) (position_id : String)
    (exit_price now : ℚ) (h : lookup_open pm position_id = none) :
    close_position pm position_id exit_price now = (none, pm) := by
  unfold close_position
  rw [h]

theorem close_position_not_found_witness :
    close_position pmC8 "c" 0.7 6 = (none, pmC8) :=
  close_position_not_found pmC8 "c" 0.7 6 (by simp [lookup_open, pmC8, List.find?])

/-- C2 counterexample: at instant 100 the implied observation is stale
beyond the 30-second bound and its value 1e-7 is below the 1e-6 epsilon,
yet get_price_lag and _check_lag both return the full reading lagC2 instead
of the insufficient-data outcome the claim requires; its
price_difference_pct of 49999999999900 is the result of dividing by the
1e-7 implied value, and the reading even passes the is_profitable gate that
fans it out to the trading callbacks. -/
theorem get_price_lag_stale_counterexample :
    pdPmC2.is_stale 100 30 = true ∧
    pdPmC2.price < 1/1000000 ∧
    get_price_lag "BTC" (some oracleFeedC2) (some pmFeedC2) = some lagC2 ∧
    check_lag "BTC" (some oracleFeedC2) (some pmFeedC2) = some lagC2 ∧
    lagC2.price_difference_pct = ((50000 - 1/10000000) / (1/10000000)) * 100 ∧
    lagC2.is_profitable = true := by
  refine ⟨?_, ?_, ?_, ?_, ?_, ?_⟩
  · simp only [PriceData.is_stale, PriceData.age_seconds, pdPmC2, decide_eq_true_eq]
    norm_num
  · norm_num [pdPmC2]
  · simp only [get_price_lag, oracleFeedC2, pmFeedC2, pdPmC2, Option.bind_some,
      Option.some.injEq, lagC2, PriceLag.mk.injEq]
    norm_num [abs_of_nonneg]
  · simp only [check_lag, oracleFeedC2, pmFeedC2, pdPmC2, Option.some.injEq,
      lagC2, PriceLag.mk.injEq]
    norm_num [abs_of_nonneg]
  · norm_num [lagC2]
  · simp only [PriceLag.is_profitable, lagC2, decide_eq_true_eq]
    norm_num

/-- C2 amended: get_price_lag and _check_lag return the insufficient-data
outcome exactly when one of the two current observations is absent;
staleness and the magnitude of the implied value are never checked, and the
division by the implied value is unguarded. -/
theorem get_price_lag_none_iff (symbol : String) (oracle_feed polymarket_feed : Option PriceFeed) :
    (get_price_lag symbol oracle_feed polymarket_feed = none ↔
      oracle_feed.bind (·.current_price) = none ∨
      polymarket_feed.bind (·.current_price) = none) ∧
    (check_lag symbol oracle_feed polymarket_feed = none ↔
      oracle_feed.bind (·.current_price) = none ∨
      polymarket_feed.bind (·.current_price) = none) := by
  constructor
  · unfold get_price_lag
    cases oracle_feed.bind (·.current_price) <;>
      cases polymarket_feed.bind (·.current_price) <;> simp
  · unfold check_lag
    rcases oracle_feed with _ | ofeed
    · simp
    · rcases hoc : ofeed.current_price with _ | oracle_price <;>
        rcases polymarket_feed with _ | pfeed <;>
        try rcases hpc : pfeed.current_price with _ | pm_price <;>
      simp [hoc, Option.bind]
      all_goals simp_all [Option.bind]

/-- C3 counterexample: an observation older than the current head is not
dropped — after the call both the stored series and the current price have
changed, contradicting the claim that the update leaves them exactly as
before. -/
theorem update_out_of_order_counterexample :
    pdOldC3.timestamp < pdHeadC3.timestamp ∧
    (feedC3.update pdOldC3).price_history ≠ feedC3.price_history ∧
    (feedC3.update pdOldC3).current_price ≠ feedC3.current_price := by
  refine ⟨by norm_num [pdOldC3, pdHeadC3], ?_, ?_⟩
  · have h : (feedC3.update pdOldC3).price_history = [pdHeadC3, pdOldC3] := by
      simp [PriceFeed.update, feedC3]
    rw [h]
    simp [feedC3]
  · have h : (feedC3.update pdOldC3).current_price = some pdOldC3 := rfl
    rw [h]
    simp only [feedC3, pdOldC3, pdHeadC3, ne_eq, Option.some.injEq, PriceData.mk.injEq]
    norm_num

/-- C3 amended: an observation older than the current head is appended and
becomes the current price like any other observation (shown here for a
series under capacity, where not even the trim fires); update never drops
or reorders on the embedded timestamp. -/
theorem update_appends_out_of_order (f : PriceFeed) (pd head : PriceData)
    (hhead : f.current_price = some head) (holder : pd.timestamp < head.timestamp)
    (hcap : f.price_history.length < f.max_history_size) :
    (f.update pd).current_price = some pd ∧
    (f.update pd).price_history = f.price_history ++ [pd] := by
  unfold PriceFeed.update
  refine ⟨rfl, ?_⟩
  simp only [List.length_append, List.length_cons]
  rw [if_neg (by simp; omega)]

/-! ### Claim C4 — bounded history capacity -/

/-- Taking the last N elements twice around an append collapses: keeping the
last N of (last N of l, then xs) is keeping the last N of (l, then xs). -/
theorem drop_last_glue (l xs : List PriceData) (N : ℕ) :
    ((l.drop (l.length - N)) ++ xs).drop (((l.drop (l.length - N)) ++ xs).length - N) =
    (l ++ xs).drop ((l ++ xs).length - N) := by
  rw [List.drop_append_eq_append_drop, List.drop_append_eq_append_drop, List.drop_drop]
  congr 1
  · congr 1
    simp only [List.length_append, List.length_drop]
    omega
  · congr 1
    simp only [List.length_append, List.length_drop]
    omega

/-- One update step keeps exactly the last max_history_size arrivals when the
capacity is positive. -/
theorem update_hist_eq (f : PriceFeed) (x : PriceData) (hN : 0 < f.max_history_size) :
    (f.update x).price_history =
      (f.price_history ++ [x]).drop ((f.price_history ++ [x]).length - f.max_history_size) := by
  unfold PriceFeed.update pyLastSlice
  by_cases h : (f.price_history ++ [x]).length > f.max_history_size
  · simp only [h, if_true]
    rw [if_neg (by omega)]
  · simp only [h, if_false]
    have : (f.price_history ++ [x]).length - f.max_history_size = 0 := by omega
    rw [this, List.drop_zero]

/-- Folding a sequence of arrivals keeps exactly the last N arrivals, for any
start state within capacity. -/
theorem run_updates_hist (N : ℕ) (hN : 0 < N) :
    ∀ (xs : List PriceData) (f : PriceFeed), f.max_history_size = N →
      f.price_history.length ≤ N →
      (xs.foldl PriceFeed.update f).price_history =
        (f.price_history ++ xs).drop ((f.price_history ++ xs).length - N) ∧
      (xs.foldl PriceFeed.update f).max_history_size = N := by
  intro xs
  induction xs with
  | nil =>
    intro f hm hl
    refine ⟨?_, hm⟩
    have : (f.price_history ++ []).length - N = 0 := by simp; omega
    rw [this, List.drop_zero, List.append_nil, List.foldl_nil]
  | cons x xs ih =>
    intro f hm hl
    have hstep : (f.update x).price_history =
        (f.price_history ++ [x]).drop ((f.price_history ++ [x]).length - N) := by
      rw [← hm]; exact update_hist_eq f x (hm ▸ hN)
    have hm' : (f.update x).max_history_size = N := hm
    have hl' : (f.update x).price_history.length ≤ N := by
      rw [hstep, List.length_drop]; omega
    have := ih (f.update x) hm' hl'
    rw [List.foldl_cons]
    refine ⟨?_, this.2⟩
    rw [this.1, hstep, drop_last_glue]
    congr 1 <;> simp

/-- C4: for every sequence of arrivals pushed into a fresh feed, the stored
history never exceeds the capacity 1000, and it holds exactly the most
recently arrived observations in arrival order (the oldest arrivals having
been evicted first). -/
theorem feed_capacity (symbol : String) (xs : List PriceData) :
    (xs.foldl PriceFeed.update (initFeed symbol)).price_history =
      xs.drop (xs.length - 1000) ∧
    (xs.foldl PriceFeed.update (initFeed symbol)).price_history.length =
      min xs.length 1000 := by
  have h := run_updates_hist 1000 (by norm_num) xs (initFeed symbol) rfl (by simp [initFeed])
  have h1 : (xs.foldl PriceFeed.update (initFeed symbol)).price_history =
      xs.drop (xs.length - 1000) := by
    have := h.1
    simpa [initFeed] using this
  refine ⟨h1, ?_⟩
  rw [h1, List.length_drop]
  omega

theorem update_appends_out_of_order_witness :
    (feedC3.update pdOldC3).current_price = some pdOldC3 ∧
    (feedC3.update pdOldC3).price_history = feedC3.price_history ++ [pdOldC3] :=
  update_appends_out_of_order feedC3 pdOldC3 pdHeadC3 rfl
    (by norm_num [pdOldC3, pdHeadC3]) (by simp [feedC3])

/-! ### Claim C5 — confidence and size bounds -/

/-- C5 counterexample: the factor terms of _calculate_confidence are only
capped from above with min, never clamped from below, so a negative market
liquidity — an input combination the claim explicitly ranges over — drives
the confidence below 0 and the recommended size below 0. -/
theorem confidence_bounds_counterexample :
    calculate_confidence 30 0.2 1 (-1000000) < 0 ∧
    calculate_position_size 100 0.85 .very_strong (-1000000) < 0 := by
  constructor
  · unfold calculate_confidence
    refine lt_of_le_of_lt (pyRound_le 3 _ (-14) (-14000) (by norm_num) ?_) (by norm_num)
    simp only [min_def]
    norm_num
  · unfold calculate_position_size strength_multiplier
    refine lt_of_le_of_lt (pyRound_le 2 _ (-100000) (-10000000) (by norm_num) ?_) (by norm_num)
    simp only [min_def]
    norm_num

/-- C5 amended: when the inputs lie in their intended domains — nonnegative
lag and probability gap (analyze_lag passes absolute values), oracle
confidence in the unit interval, nonnegative liquidity, and a nonnegative
maximum position size on the cent grid — the confidence lies in the unit
interval and the recommended size in the interval from 0 to the maximum
position size.  Outside those domains the bounds fail (see the
counterexample): the code caps each factor only from above. -/
theorem confidence_and_size_bounds
    (lag_seconds prob_diff oracle_confidence market_liquidity max_position_size : ℚ)
    (strength : SignalStrength) (k : ℤ)
    (hlag : 0 ≤ lag_seconds) (hprob : 0 ≤ prob_diff)
    (hoc0 : 0 ≤ oracle_confidence) (hoc1 : oracle_confidence ≤ 1)
    (hliq : 0 ≤ market_liquidity) (hmax : 0 ≤ max_position_size)
    (hgrid : ((k : ℚ)) = max_position_size * 100) :
    (0 ≤ calculate_confidence lag_seconds prob_diff oracle_confidence market_liquidity ∧
     calculate_confidence lag_seconds prob_diff oracle_confidence market_liquidity ≤ 1) ∧
    (0 ≤ calculate_position_size max_position_size
          (calculate_confidence lag_seconds prob_diff oracle_confidence market_liquidity)
          strength market_liquidity ∧
     calculate_position_size max_position_size
          (calculate_confidence lag_seconds prob_diff oracle_confidence market_liquidity)
          strength market_liquidity ≤ max_position_size) := by
  have hconf : 0 ≤ calculate_confidence lag_seconds prob_diff oracle_confidence
      market_liquidity ∧
      calculate_confidence lag_seconds prob_diff oracle_confidence market_liquidity ≤ 1 := by
    unfold calculate_confidence
    have hlagf : 0 ≤ min 1 (lag_seconds / 30) ∧ min 1 (lag_seconds / 30) ≤ 1 :=
      ⟨le_min (by norm_num) (by positivity), min_le_left _ _⟩
    have hprobf : 0 ≤ min 1 (prob_diff / 0.2) ∧ min 1 (prob_diff / 0.2) ≤ 1 :=
      ⟨le_min (by norm_num) (by positivity), min_le_left _ _⟩
    have hliqf : 0 ≤ min 1 (market_liquidity / 10000) ∧ min 1 (market_liquidity / 10000) ≤ 1 :=
      ⟨le_min (by norm_num) (by positivity), min_le_left _ _⟩
    constructor
    · exact le_pyRound 3 _ 0 0 (by norm_num) (by nlinarith [hlagf.1, hprobf.1, hliqf.1])
    · exact pyRound_le 3 _ 1 1000 (by norm_num) (by nlinarith [hlagf.2, hprobf.2, hliqf.2])
  refine ⟨hconf, ?_⟩
  set c := calculate_confidence lag_seconds prob_diff oracle_confidence market_liquidity
  have hmult : 0 ≤ strength_multiplier strength ∧ strength_multiplier strength ≤ 1 := by
    cases strength <;> norm_num [strength_multiplier]
  unfold calculate_position_size
  have hx0 : 0 ≤ max_position_size * c * strength_multiplier strength :=
    mul_nonneg (mul_nonneg hmax hconf.1) hmult.1
  have hx1 : max_position_size * c * strength_multiplier strength ≤ max_position_size :=
    (mul_le_of_le_one_right (mul_nonneg hmax hconf.1) hmult.2).trans
      (mul_le_of_le_one_right hmax hconf.2)
  constructor
  · exact le_pyRound 2 _ 0 0 (by norm_num)
      (le_min hx0 (mul_nonneg hliq (by norm_num)))
  · exact pyRound_le 2 _ max_position_size k hgrid ((min_le_left _ _).trans hx1)

theorem confidence_and_size_bounds_witness :
    (0 ≤ calculate_confidence 12 0.08 1 2000 ∧
     calculate_confidence 12 0.08 1 2000 ≤ 1) ∧
    (0 ≤ calculate_position_size 100 (calculate_confidence 12 0.08 1 2000) .moderate 2000 ∧
     calculate_position_size 100 (calculate_confidence 12 0.08 1 2000) .moderate 2000 ≤ 100) :=
  confidence_and_size_bounds 12 0.08 1 2000 100 .moderate 10000
    (by norm_num) (by norm_num) (by norm_num) (by norm_num) (by norm_num) (by norm_num)
    (by norm_num)

/-! ### Claim C6 — the five-dollar floor

The scoring path _calculate_position_size applies no minimum floor at all;
the floor lives only in RiskManager.adjust_position_size.
-/

/-- C6 amended, floor half: adjust_position_size either collapses the
computed size to exactly zero (whenever it falls below the five-dollar
floor) or returns at least five dollars; there is no outcome strictly
between zero and the floor. -/
theorem adjust_size_floor (lim : RiskLimits) (s : RiskState)
    (requested_size confidence market_liquidity : ℚ) :
    adjust_position_size lim s requested_size confidence market_liquidity = 0 ∨
    5 ≤ adjust_position_size lim s requested_size confidence market_liquidity := by
  unfold adjust_position_size
  dsimp only
  split <;> split
  all_goals
    first
      | (rename_i h
         exact Or.inr (le_pyRound 2 _ 5 500 (by norm_num) (by linarith [not_lt.mp h])))
      | exact Or.inl (by norm_num)

theorem yes_lowercases : (strLower "Yes" == "yes") = true := by decide

theorem get_yes_C6 : marketC6.get_yes_outcome = some outcomeC6 := by
  simp only [Market.get_yes_outcome, marketC6, List.find?]
  rw [show outcomeC6.outcome = "Yes" from rfl, yes_lowercases]

theorem implied_C6 : marketC6.get_implied_price = some 100 := by
  unfold Market.get_implied_price
  rw [show marketC6.price_threshold = some 100 from rfl]
  dsimp only
  rw [if_neg (by norm_num), get_yes_C6]
  dsimp only
  rw [if_pos (by rfl)]
  norm_num [outcomeC6]

theorem conf_C6 : calculate_confidence 20 (0.4) 1 30 = 0.75 := by
  unfold calculate_confidence
  dsimp only
  rw [pyRound_eq 3 _ 750 (by rw [min_def, min_def, min_def]; norm_num)
        (by rw [min_def, min_def, min_def]; norm_num)]
  norm_num

theorem size_C6 : calculate_position_size 100 (0.75) .very_strong 30 = 3 := by
  unfold calculate_position_size strength_multiplier
  dsimp only
  rw [pyRound_eq 2 _ 300 (by rw [min_def]; norm_num) (by rw [min_def]; norm_num)]
  norm_num

theorem exp_profit_C6 : calculate_expected_profit 0.4 = 38 := by
  unfold calculate_expected_profit
  dsimp only
  rw [show |(0.4 : ℚ)| = 0.4 from abs_of_nonneg (by norm_num),
      pyRound_eq 2 _ 3800 (by norm_num) (by norm_num), max_def]
  norm_num

theorem analyze_lag_C6_eval (now : ℚ) :
    analyze_lag defaultParams "BTC" oracleC6 marketC6 now = some (sigC6 now) := by
  unfold analyze_lag
  rw [implied_C6]
  dsimp only
  rw [if_neg (by norm_num), show marketC6.price_threshold = some 100 from rfl]
  dsimp only
  rw [if_neg (by norm_num), get_yes_C6]
  dsimp only
  rw [show outcomeC6.order_book = some { token_id := "tokYes", timestamp := 0 } from rfl]
  dsimp only
  simp only [oracleC6, marketC6, outcomeC6, defaultParams]
  rw [show |(20 : ℚ) - 0| = 20 by norm_num]
  have e1 : ((0.1 : ℚ) ⊔ 0.9 ⊓ (0.5 + (110 - 100) / 100 * 100 * 0.1) - 0.5) = 0.4 := by
    rw [min_def, max_def]; norm_num
  simp only [e1]
  simp only [show |(0.4 : ℚ)| = 0.4 from abs_of_nonneg (by norm_num)]
  have hTrig : ((20 : ℚ) ≥ 10 ∧ (0.4 : ℚ) ≥ 5e-2) := ⟨by norm_num, by norm_num⟩
  simp only [if_pos hTrig]
  have hPos : ((0.4 : ℚ) > 0) := by norm_num
  simp only [if_pos hPos]
  have hVS : ((0.4 : ℚ) ≥ 0.15) := by norm_num
  simp only [if_pos hVS]
  rw [conf_C6, size_C6, exp_profit_C6]
  norm_num [sigC6]

/-- C6 counterexample: a signal produced by the scoring path with a
recommended size of three dollars — strictly below the five-dollar floor —
that is neither collapsed to zero nor non-actionable: the floor lives in
adjust_position_size only, and actionability ignores the size. -/
theorem scoring_no_floor_counterexample :
    (analyze_lag defaultParams "BTC" oracleC6 marketC6 0).map
        (fun s => (s.recommended_size, s.is_actionable)) = some (3, true) ∧
    (3 : ℚ) < 5 ∧ (3 : ℚ) ≠ 0 := by
  refine ⟨?_, by norm_num, by norm_num⟩
  rw [analyze_lag_C6_eval 0]
  norm_num [sigC6, Signal.is_actionable]
  intro h
  exact SignalType.noConfusion h

/-! ### Claim C9 — determinism of the scoring path -/

/-- C9 amended: every Signal field except the timestamp is a pure function
of the analysis inputs — two calls on identical (oracle, market) inputs
agree on all of them, whatever the two call instants are. -/
theorem analyze_lag_pure_except_timestamp (p : StrategyParams) (symbol : String)
    (oracle_price : PriceData) (market : Market) (now₁ now₂ : ℚ) :
    (analyze_lag p symbol oracle_price market now₁).map Signal.fieldsExceptTimestamp =
    (analyze_lag p symbol oracle_price market now₂).map Signal.fieldsExceptTimestamp := by
  unfold analyze_lag
  cases market.get_implied_price with
  | none => rfl
  | some mi =>
    dsimp only
    by_cases hmi : mi = 0
    · simp only [if_pos hmi]
    · simp only [if_neg hmi]
      cases market.price_threshold with
      | none => rfl
      | some th =>
        dsimp only
        by_cases hth : th = 0
        · simp only [if_pos hth]
        · simp only [if_neg hth]
          cases market.get_yes_outcome with
          | none => rfl
          | some yes => rfl

/-- C9 counterexample: two calls with bit-identical (oracle, market) inputs
made at instants 0 and 1 return Signals that differ — their timestamp
fields record the respective call instants — so not every field is a pure
function of the inputs. -/
theorem analyze_lag_timestamp_counterexample :
    (analyze_lag defaultParams "BTC" oracleC6 marketC6 0).map Signal.timestamp = some 0 ∧
    (analyze_lag defaultParams "BTC" oracleC6 marketC6 1).map Signal.timestamp = some 1 ∧
    analyze_lag defaultParams "BTC" oracleC6 marketC6 0 ≠
      analyze_lag defaultParams "BTC" oracleC6 marketC6 1 := by
  refine ⟨?_, ?_, ?_⟩
  · rw [analyze_lag_C6_eval 0]; rfl
  · rw [analyze_lag_C6_eval 1]; rfl
  · rw [analyze_lag_C6_eval 0, analyze_lag_C6_eval 1]
    simp only [ne_eq, Option.some.injEq, sigC6, Signal.mk.injEq, not_and]
    intro h
    exact fun _ _ _ _ _ _ _ _ _ _ _ _ _ h14 => by norm_num at h14

/-! ### Claim C7 — order of the validation checks -/

/-- Flattening of can_trade: the returned reason is the first failing check
among daily-loss, concurrency and cooldown, in that order, and approval
holds exactly when the reason is the ok tag. -/
theorem can_trade_spec (lim : RiskLimits) (s : RiskState) (now : ℚ) :
    (can_trade lim s now).2.2 =
      (if |(check_daily_reset s now).daily_pnl| ≥ lim.max_daily_loss_usd ∧
          (check_daily_reset s now).daily_pnl < 0 then RejectReason.daily_loss_limit
       else if (check_daily_reset s now).positions_count ≥ lim.max_concurrent_positions then
         RejectReason.max_positions
       else if cooldown_active lim (check_daily_reset s now) now then RejectReason.cooldown
       else RejectReason.ok) ∧
    ((can_trade lim s now).2.1 = true ↔ (can_trade lim s now).2.2 = RejectReason.ok) := by
  unfold can_trade cooldown_active
  set s1 := check_daily_reset s now with hs1
  by_cases h1 : |s1.daily_pnl| ≥ lim.max_daily_loss_usd ∧ s1.daily_pnl < 0
  · simp [h1]
  · simp only [if_neg h1]
    by_cases h2 : s1.positions_count ≥ lim.max_concurrent_positions
    · simp [h2]
    · simp only [if_neg h2]
      cases hc : s1.in_cooldown
      · simp [hc]
      · cases hll : s1.last_loss_time with
        | none => simp [hc, hll]
        | some u =>
          by_cases h3 : now < u + lim.cooldown_after_loss_seconds
          · simp [hc, hll, h3]
          · simp [hc, hll, h3]

/-- C7: validate_trade runs its checks in the fixed order daily-halt,
concurrency, cooldown, size-vs-limit, slippage-vs-limit,
confidence-vs-minimum, short-circuits on the first failure, returns the
reason of exactly that check, approves exactly when no check fails — and in
particular a proposal whose size exceeds the position-size limit is
rejected with the size-limit reason whenever the gate checks pass,
regardless of the signal's confidence. -/
theorem validate_trade_check_order (lim : RiskLimits) (s : RiskState) (now : ℚ)
    (a : TradeAction) :
    ((validate_trade lim s now a).2.2 =
      (if |(check_daily_reset s now).daily_pnl| ≥ lim.max_daily_loss_usd ∧
          (check_daily_reset s now).daily_pnl < 0 then RejectReason.daily_loss_limit
       else if (check_daily_reset s now).positions_count ≥ lim.max_concurrent_positions then
         RejectReason.max_positions
       else if cooldown_active lim (check_daily_reset s now) now then RejectReason.cooldown
       else if a.size > lim.max_position_size_usd then RejectReason.size_limit
       else if a.max_slippage > lim.max_slippage_pct / 100 then RejectReason.slippage_limit
       else if a.signal.confidence < 0.5 then RejectReason.low_confidence
       else RejectReason.ok) ∧
     ((validate_trade lim s now a).2.1 = true ↔
       (validate_trade lim s now a).2.2 = RejectReason.ok)) ∧
    (a.size > lim.max_position_size_usd →
     (can_trade lim s now).2.1 = true →
     (validate_trade lim s now a).2.1 = false ∧
     (validate_trade lim s now a).2.2 = RejectReason.size_limit) := by
  have hspec := can_trade_spec lim s now
  rcases hct : can_trade lim s now with ⟨s', pr⟩
  rcases pr with ⟨ok, r⟩
  rw [hct] at hspec
  dsimp only at hspec
  unfold validate_trade
  rw [hct]
  dsimp only
  by_cases c1 : |(check_daily_reset s now).daily_pnl| ≥ lim.max_daily_loss_usd ∧
      (check_daily_reset s now).daily_pnl < 0
  · have hr : r = RejectReason.daily_loss_limit := by rw [hspec.1, if_pos c1]
    have hok : ok = false := by
      cases ok
      · rfl
      · exact absurd (hspec.2.mp rfl) (by rw [hr]; intro h; cases h)
    subst hr hok
    simp [c1]
  · simp only [if_neg c1] at hspec ⊢
    by_cases c2 : (check_daily_reset s now).positions_count ≥ lim.max_concurrent_positions
    · have hr : r = RejectReason.max_positions := by rw [hspec.1, if_pos c2]
      have hok : ok = false := by
        cases ok
        · rfl
        · exact absurd (hspec.2.mp rfl) (by rw [hr]; intro h; cases h)
      subst hr hok
      simp [c2]
    · simp only [if_neg c2] at hspec ⊢
      by_cases c3 : cooldown_active lim (check_daily_reset s now) now = true
      · have hr : r = RejectReason.cooldown := by rw [hspec.1, if_pos c3]
        have hok : ok = false := by
          cases ok
          · rfl
          · exact absurd (hspec.2.mp rfl) (by rw [hr]; intro h; cases h)
        subst hr hok
        simp [c3]
      · have hr : r = RejectReason.ok := by
          rw [hspec.1, if_neg c3]
        have hok : ok = true := hspec.2.mpr hr
        subst hr hok
        simp only [Bool.not_eq_true] at c3
        simp only [c3, Bool.false_eq_true, if_false, if_true]
        by_cases c4 : a.size > lim.max_position_size_usd
        · simp [c4]
        · simp only [if_neg c4]
          refine ⟨⟨?_, ?_⟩, ?_⟩
          · split_ifs <;> rfl
          · split_ifs <;> simp
          · intro h _
            exact absurd h c4

theorem validate_trade_check_order_witness :
    (validate_trade defaultLimits (initState 0) 0 actionC7).2.1 = false ∧
    (validate_trade defaultLimits (initState 0) 0 actionC7).2.2 = RejectReason.size_limit :=
  (validate_trade_check_order defaultLimits (initState 0) 0 actionC7).2
    (by norm_num [actionC7, defaultLimits])
    (by norm_num [can_trade, check_daily_reset, initState, defaultLimits])

theorem cooldownInv_mono (lim : RiskLimits) (s : RiskState) (t t' : ℚ)
    (h : CooldownInv lim s t) (htt : t ≤ t') : CooldownInv lim s t' := by
  intro u hu
  exact ⟨(h u hu).1.trans htt, fun hc => ((h u hu).2 hc).trans htt⟩

theorem cooldownInv_init (lim : RiskLimits) (t0 : ℚ) :
    CooldownInv lim (initState t0) t0 := by
  intro u hu
  simp [initState] at hu

theorem can_trade_fst_cooldown_fields (lim : RiskLimits) (s : RiskState) (now : ℚ)
    (h : CooldownInv lim (check_daily_reset s now) now) :
    CooldownInv lim (can_trade lim s now).1 now := by
  unfold can_trade
  dsimp only
  split_ifs with h1 h2 h3
  · exact h
  · exact h
  · cases hll : (check_daily_reset s now).last_loss_time with
    | none => exact h
    | some u =>
      dsimp only
      split_ifs with h4
      · exact h
      · intro v hv
        simp only [Option.some.injEq] at hv
        subst hv
        exact ⟨(h u hll).1, fun _ => le_of_not_lt h4⟩
  · exact h

theorem check_daily_reset_cooldown_fields (s : RiskState) (now : ℚ) :
    (check_daily_reset s now).last_loss_time = s.last_loss_time ∧
    (check_daily_reset s now).in_cooldown = s.in_cooldown := by
  unfold check_daily_reset reset_daily
  split_ifs <;> exact ⟨rfl, rfl⟩

theorem cooldownInv_step (lim : RiskLimits) (s : RiskState) (te : TimedEvent)
    (h : CooldownInv lim s te.t) : CooldownInv lim (apply_event lim s te) te.t := by
  rcases te with ⟨t, e⟩
  cases e with
  | openTrade size =>
    intro u hu
    exact h u hu
  | closeTrade pnl size =>
    intro u hu
    dsimp only [apply_event] at hu ⊢
    unfold on_trade_closed at hu ⊢
    split_ifs at hu ⊢ with hp
    · simp only at hu
      cases hu
      exact ⟨le_refl _, fun hc => by cases hc⟩
    · exact h u hu
  | canTradeCall =>
    dsimp only [apply_event]
    apply can_trade_fst_cooldown_fields
    intro u hu
    rw [(check_daily_reset_cooldown_fields s t).1] at hu
    refine ⟨(h u hu).1, fun hc => ?_⟩
    rw [(check_daily_reset_cooldown_fields s t).2] at hc
    exact (h u hu).2 hc

theorem cooldownInv_run (lim : RiskLimits) :
    ∀ (evs : List TimedEvent) (s : RiskState) (a t : ℚ),
      CooldownInv lim s a → Chron a evs t →
      CooldownInv lim (run_events lim s evs) t := by
  intro evs
  induction evs with
  | nil =>
    intro s a t h hch
    exact cooldownInv_mono lim s a t h hch
  | cons te rest ih =>
    intro s a t h hch
    obtain ⟨h1, h2⟩ := hch
    exact ih (apply_event lim s te) te.t t
      (cooldownInv_step lim s te (cooldownInv_mono lim s a te.t h h1)) h2

theorem reachable_cooldownInv (lim : RiskLimits) (s : RiskState) (t : ℚ)
    (h : ReachableAt lim s t) : CooldownInv lim s t := by
  obtain ⟨t0, evs, hch, rfl⟩ := h
  have h0 : CooldownInv lim (initState t0) t0 := cooldownInv_init lim t0
  exact cooldownInv_run lim evs (initState t0) t0 t h0 hch

/-- C1: for every reachable risk state and any later instant within the
state's current day, the gate never approves — neither through can_trade
nor through validate_trade on any proposal — when the open-position count
has reached max_concurrent_positions, or the daily pnl is at or below minus
max_daily_loss_usd (assuming a positive loss limit), or a recorded loss's
cooldown window has not yet elapsed. -/
theorem riskgate_no_approval (lim : RiskLimits) (s : RiskState) (t now : ℚ)
    (hre : ReachableAt lim s t) (hnow : t ≤ now)
    (hday : dayOf now ≤ s.day_start) (hmax : 0 < lim.max_daily_loss_usd)
    (hbad : s.positions_count ≥ lim.max_concurrent_positions
          ∨ s.daily_pnl ≤ -lim.max_daily_loss_usd
          ∨ (∃ u, s.last_loss_time = some u ∧
              now < u + lim.cooldown_after_loss_seconds)) :
    (can_trade lim s now).2.1 = false ∧
    ∀ a : TradeAction, (validate_trade lim s now a).2.1 = false := by
  have hinv : CooldownInv lim s now :=
    cooldownInv_mono lim s t now (reachable_cooldownInv lim s t hre) hnow
  have hreset : check_daily_reset s now = s := by
    unfold check_daily_reset
    rw [if_neg (not_lt.mpr hday)]
  have hct : (can_trade lim s now).2.1 = false := by
    unfold can_trade
    rw [hreset]
    rcases hbad with hpos | hpnl | ⟨u, hu, hlt⟩
    · by_cases h1 : |s.daily_pnl| ≥ lim.max_daily_loss_usd ∧ s.daily_pnl < 0
      · rw [if_pos h1]
      · rw [if_neg h1, if_pos hpos]
    · have h1 : |s.daily_pnl| ≥ lim.max_daily_loss_usd ∧ s.daily_pnl < 0 := by
        constructor
        · rw [abs_of_neg (by linarith)]
          linarith
        · linarith
      rw [if_pos h1]
    · by_cases h1 : |s.daily_pnl| ≥ lim.max_daily_loss_usd ∧ s.daily_pnl < 0
      · rw [if_pos h1]
      · rw [if_neg h1]
        by_cases h2 : s.positions_count ≥ lim.max_concurrent_positions
        · rw [if_pos h2]
        · rw [if_neg h2]
          cases hc : s.in_cooldown
          · exact absurd ((hinv u hu).2 hc) (not_le.mpr hlt)
          · rw [if_pos rfl]
            rw [hu]
            dsimp only
            rw [if_pos hlt]
  refine ⟨hct, fun a => ?_⟩
  unfold validate_trade
  rcases hcc : can_trade lim s now with ⟨s', pr⟩
  rcases pr with ⟨ok, r⟩
  rw [hcc] at hct
  dsimp only at hct
  subst hct
  rfl

theorem riskgate_no_approval_witness :
    (can_trade defaultLimits sC1 20).2.1 = false :=
  (riskgate_no_approval defaultLimits sC1 10 20
    ⟨0, evsC1, ⟨by norm_num, by norm_num [Chron]⟩, rfl⟩
    (by norm_num)
    (by norm_num [sC1, run_events, apply_event, on_trade_closed, evsC1, initState, dayOf])
    (by norm_num [defaultLimits])
    (Or.inr (Or.inr ⟨10,
      by norm_num [sC1, run_events, apply_event, on_trade_closed, evsC1, initState],
      by norm_num [defaultLimits]⟩))).1

theorem check_daily_reset_count_exposure (s : RiskState) (now : ℚ) :
    (check_daily_reset s now).positions_count = s.positions_count ∧
    (check_daily_reset s now).current_exposure_usd = s.current_exposure_usd := by
  unfold check_daily_reset reset_daily
  split_ifs <;> exact ⟨rfl, rfl⟩

theorem can_trade_fst_count_exposure (lim : RiskLimits) (s : RiskState) (now : ℚ) :
    (can_trade lim s now).1.positions_count = s.positions_count ∧
    (can_trade lim s now).1.current_exposure_usd = s.current_exposure_usd := by
  unfold can_trade
  dsimp only
  split_ifs
  · exact check_daily_reset_count_exposure s now
  · exact check_daily_reset_count_exposure s now
  · cases hll : (check_daily_reset s now).last_loss_time with
    | none => exact check_daily_reset_count_exposure s now
    | some u =>
      dsimp only
      split_ifs
      · exact check_daily_reset_count_exposure s now
      · exact check_daily_reset_count_exposure s now
  · exact check_daily_reset_count_exposure s now

/-- C10: along every trace of on_trade_opened/on_trade_closed/can_trade
calls whose opened sizes are nonnegative, the positions count and the
current USD exposure never become negative — on_trade_closed clamps both at
zero, so over-closing leaves them at zero rather than below. -/
theorem risk_counters_nonneg (lim : RiskLimits) (t0 : ℚ) (evs : List TimedEvent)
    (h : ∀ te ∈ evs, opens_nonneg te) :
    0 ≤ (run_events lim (initState t0) evs).positions_count ∧
    0 ≤ (run_events lim (initState t0) evs).current_exposure_usd := by
  suffices H : ∀ (l : List TimedEvent) (s : RiskState),
      0 ≤ s.positions_count → 0 ≤ s.current_exposure_usd →
      (∀ te ∈ l, opens_nonneg te) →
      0 ≤ (run_events lim s l).positions_count ∧
      0 ≤ (run_events lim s l).current_exposure_usd by
    exact H evs (initState t0) (by norm_num [initState]) (by norm_num [initState]) h
  intro l
  induction l with
  | nil =>
    intro s h1 h2 _
    exact ⟨h1, h2⟩
  | cons te rest ih =>
    intro s h1 h2 hall
    have hte := hall te (List.mem_cons_self te rest)
    have hrest := fun x hx => hall x (List.mem_cons_of_mem te hx)
    have hstep : 0 ≤ (apply_event lim s te).positions_count ∧
        0 ≤ (apply_event lim s te).current_exposure_usd := by
      rcases te with ⟨t, e⟩
      cases e with
      | openTrade size =>
        dsimp only [opens_nonneg] at hte
        dsimp only [apply_event]
        unfold on_trade_opened
        constructor
        · dsimp only; omega
        · dsimp only; linarith
      | closeTrade pnl size =>
        dsimp only [apply_event]
        unfold on_trade_closed
        split_ifs <;> exact ⟨le_max_left _ _, le_max_left _ _⟩
      | canTradeCall =>
        dsimp only [apply_event]
        rw [(can_trade_fst_count_exposure lim s t).1,
            (can_trade_fst_count_exposure lim s t).2]
        exact ⟨h1, h2⟩
    have : run_events lim s (te :: rest) = run_events lim (apply_event lim s te) rest := by
      simp [run_events]
    rw [this]
    exact ih (apply_event lim s te) hstep.1 hstep.2 hrest

theorem risk_counters_nonneg_witness :
    0 ≤ (run_events defaultLimits (initState 0) evsC10).positions_count ∧
    0 ≤ (run_events defaultLimits (initState 0) evsC10).current_exposure_usd :=
  risk_counters_nonneg defaultLimits 0 evsC10
    (by
      intro te hte
      simp only [evsC10, List.mem_cons, List.not_mem_nil, or_false] at hte
      rcases hte with rfl | rfl | rfl <;> norm_num [opens_nonneg])

end PolyBot

